import Mathlib

/-!
Verification of the Bela real-time audio core specification against its
source (`include/Bela.h`, `libraries/Trill/CentroidDetection.cpp`,
`examples/04-Audio/filter-FIR/render.cpp`).

The repository ships the public header `Bela.h`, whose doc comments give
concrete, normative values for the sample-rate and channel-count contract,
together with the Trill centroid-detection library and usage examples.
The core implementation behind the header (the render loop, the auxiliary
task dispatcher and the lifecycle controller) is not part of the shipped
sources; where a property depends on it, the corresponding definition is
modelled from the specification and is marked as such in its doc comment.
-/

namespace Bela

/-! ## Sample-rate and channel-count contract (Bela.h)

Constants documented in `Bela.h`:
  line 220: "Audio sample rate in Hz (currently always 44100.0)";
  lines 237-243: "The analog sample rate depends on the number of analog
  channels used. If 8 channels are used, the sample rate is 22050. If 4
  channels are used, the sample rate is 44100. If 2 channels are used, the
  sample rate is 88200. If analog I/O is disabled, the sample rate is 0.";
  lines 247-250: digital channels "will always be 16, unless digital I/O
  is disabled, in which case it will be 0";
  line 252: "Digital sample rate in Hz (currently always 44100.0)".
Sample rates are exact integers here, so we use `Nat` rather than the
C `float` carrier, which represents them exactly as well. -/

/-- Configuration fragment of `BelaInitSettings` (Bela.h lines 110-124)
relevant to the per-domain rate/channel contract: `useAnalog`,
`useDigital` and the analog channel count. -/
structure RateConfig where
  useAnalog : Bool
  useDigital : Bool
  numAnalogChannels : Nat
  deriving Repr, DecidableEq

/-- Audio sample rate in Hz; `Bela.h` line 220: "currently always 44100.0". -/
def audioSampleRate : Nat := 44100

/-- Analog sample rate as documented at `Bela.h` lines 237-243: 0 when
analog I/O is disabled; otherwise 22050 for 8 channels, 44100 for 4
channels, 88200 for 2 channels (other channel counts are not documented;
the header enumerates exactly these three). -/
def analogSampleRate (cfg : RateConfig) : Nat :=
  if cfg.useAnalog then
    if cfg.numAnalogChannels = 8 then 22050
    else if cfg.numAnalogChannels = 4 then 44100
    else if cfg.numAnalogChannels = 2 then 88200
    else 0
  else 0

/-- Digital channel count as documented at `Bela.h` lines 247-250:
always 16, unless digital I/O is disabled, in which case 0. -/
def digitalChannels (cfg : RateConfig) : Nat :=
  if cfg.useDigital then 16 else 0

end Bela

namespace CentroidDetection

/-! ## Trill centroid detection (CentroidDetection.cpp)

The accessors `touchLocation` and `touchSize` and the `num_touches`
computation of `process` are embedded from
`libraries/Trill/CentroidDetection.cpp`. The stored centroid locations
and sizes are abstracted to `Rat` (the C code stores `float`s; none of
the indexed accessors perform arithmetic on them, so the carrier type is
irrelevant to the bounds behaviour). -/

/-- State of a `CentroidDetection` object after `setup`/`process`:
`centroids` and `sizes` are the member vectors (resized to
`maxNumCentroids` in `setup`, CentroidDetection.cpp lines 34-35), and
`num_touches` is the member set by `process` (line 62). -/
structure State where
  maxNumCentroids : Nat
  centroids : List Rat
  sizes : List Rat
  num_touches : Nat
  deriving Repr, DecidableEq

/-- Loop of `CentroidDetection::process` (CentroidDetection.cpp lines
52-62) that determines `num_touches`: the index of the first `0xffff`
(no-touch marker) in `centroidBuffer`, or the buffer length if none. -/
def findNumTouches : List Nat → Nat
  | [] => 0
  | w :: rest => if w = 0xffff then 0 else findNumTouches rest + 1

/-- `CentroidDetection::touchLocation` (CentroidDetection.cpp lines
80-86): returns `centroids[touch_num]` when `touch_num < maxNumCentroids`,
and 0 otherwise. -/
def touchLocation (s : State) (touch_num : Nat) : Rat :=
  if touch_num < s.maxNumCentroids then s.centroids.getD touch_num 0 else 0

/-- `CentroidDetection::touchSize` (CentroidDetection.cpp lines 88-94):
returns `sizes[touch_num]` when `touch_num < num_touches`, and 0
otherwise. Note the bound is `num_touches`, not `maxNumCentroids`. -/
def touchSize (s : State) (touch_num : Nat) : Rat :=
  if touch_num < s.num_touches then s.sizes.getD touch_num 0 else 0

end CentroidDetection

namespace Dispatch

/-! ## Auxiliary task wake dispatcher

Modelled from the spec: the implementation of
`Bela_scheduleAuxiliaryTask` and of the auxiliary task loop is not among
the shipped sources (`Bela.h` lines 612-623 declare the function and
document it as non-blocking). Spec section 4.2: "`schedule(handle)`:
non-blocking. Signals the task's wake flag; ... Repeated calls while a
wake is already pending or the task is already running coalesce into at
most one additional pending execution — this is a level-triggered flag,
not a counting queue"; section 9: "implement as a single-slot flag plus a
wake primitive (not a counting queue)". The model is a labelled
transition system over one task's scheduler-visible state: `schedule`
events are issued by callers, `beginRun`/`endRun` mark the task thread
consuming the wake flag and finishing one execution of its body. -/

/-- Scheduler-visible state of one auxiliary task: whether a wake is
pending (the single-slot level-triggered flag), whether the task body is
currently running, and how many executions of the body have completed. -/
structure TaskState where
  pending : Bool
  running : Bool
  executions : Nat
  deriving Repr, DecidableEq

/-- State of a task before anything has happened: no wake pending, not
running, no completed executions. -/
def TaskState.init : TaskState := ⟨false, false, 0⟩

/-- Events observable at the dispatcher: a caller issues `schedule`; the
task thread, woken while a wake is pending, begins a run; a run of the
body ends. -/
inductive Ev
  | schedule
  | beginRun
  | endRun
  deriving Repr, DecidableEq

/-- Modelled from the spec: one transition of the dispatcher (the
implementation behind `Bela_scheduleAuxiliaryTask` and the task loop is
missing from the shipped sources). `schedule` sets the pending flag
(level-triggered: setting an already-set flag changes nothing, which is
the coalescing); `beginRun` is enabled only when a wake is pending and
the body is not running, and consumes the flag; `endRun` is enabled only
while running and completes one execution. -/
def step : TaskState → Ev → Option TaskState
  | s, .schedule => some { s with pending := true }
  | s, .beginRun =>
      if s.pending ∧ ¬ s.running then
        some { s with pending := false, running := true }
      else none
  | s, .endRun =>
      if s.running then
        some { s with running := false, executions := s.executions + 1 }
      else none

/-- Run of a whole event trace from a state; `none` when some event in it
is not enabled. -/
def runTrace : TaskState → List Ev → Option TaskState
  | s, [] => some s
  | s, e :: evs =>
      match step s e with
      | none => none
      | some s' => runTrace s' evs

/-- Number of `schedule` events in a trace. -/
def countSchedules (evs : List Ev) : Nat :=
  evs.countP (fun e => e = Ev.schedule)

/-- Numeric weight of the in-flight work recorded in a state: completed
executions plus one for a pending wake plus one for a running body. -/
def TaskState.weight (s : TaskState) : Nat :=
  s.executions + (if s.pending then 1 else 0) + (if s.running then 1 else 0)

end Dispatch

namespace Lifecycle

/-! ## Stop signal and render loop

Modelled from the spec: the render loop and `Bela_stopAudio`
implementation are not among the shipped sources; `Bela.h` lines 280-287
document `gShouldStop` ("Flag that indicates when the audio will stop
... a program can set this to true ... Calling Bela_stopAudio() has the
effect of setting this to true") and lines 447-454 document
`Bela_stopAudio` ("After this function returns, no further calls to
render() will be issued"). Spec section 3: "The stop signal transitions
false→true monotonically and never resets; no render invocation occurs
after it is observed true." The model is a transition system over the
stop flag and a count of render invocations: a render invocation is
enabled only while the flag is observed false, `stopAudio` (from any
thread) sets the flag, and any other operation of the core leaves it
untouched. -/

/-- Core state visible to the stop protocol: the global stop flag
`gShouldStop` and the number of render invocations issued so far. -/
structure CoreState where
  gShouldStop : Bool
  renderCount : Nat
  deriving Repr, DecidableEq

/-- Operations of the core affecting the stop protocol: a render
invocation by the audio thread (guarded on the stop flag), a call to
`Bela_stopAudio` from any thread (including an auxiliary task), and any
other core operation, none of which touches the flag. -/
inductive Op
  | renderInvoke
  | stopAudio
  | otherWork
  deriving Repr, DecidableEq

/-- Modelled from the spec: one core transition (the render loop and
`Bela_stopAudio` bodies are missing from the shipped sources).
`renderInvoke` is enabled only when the stop
flag is observed false; `stopAudio` sets the flag to true; no operation
ever sets it back to false. -/
def coreStep : CoreState → Op → Option CoreState
  | s, .renderInvoke =>
      if s.gShouldStop then none
      else some { s with renderCount := s.renderCount + 1 }
  | s, .stopAudio => some { s with gShouldStop := true }
  | s, .otherWork => some s

/-- Run of a sequence of core operations; `none` when some operation in
it is not enabled. -/
def runCore : CoreState → List Op → Option CoreState
  | s, [] => some s
  | s, op :: ops =>
      match coreStep s op with
      | none => none
      | some s' => runCore s' ops

end Lifecycle

namespace Render

/-! ## Elapsed audio frame counter

Modelled from the spec: the code incrementing `audioFramesElapsed` is
not among the shipped sources; `Bela.h` lines 254-260 document the field
("Number of elapsed audio frames since the start of rendering. This
holds the total number of audio frames as of the beginning of the
current period") and spec section 4.1 gives the recurrence: "The
elapsed-frame counter starts at 0 and increases by exactly `periodSize`
on every invocation." -/

/-- Modelled from the spec: value of `audioFramesElapsed` observed by
the render callback on its
k-th invocation (0-indexed): 0 at the start of rendering, increased by
exactly `periodSize` on every invocation. -/
def audioFramesElapsed (periodSize : Nat) : Nat → Nat
  | 0 => 0
  | k + 1 => audioFramesElapsed periodSize k + periodSize

end Render

namespace Buffers

/-! ## Output persistence across periods

Modelled from the spec: the buffer-exchange code is not among the shipped
sources; `Bela.h` lines 151-154 document the `analogOutputsPersist`
setting ("Whether analog outputs should persist to future frames. n.b.
digital pins always persist, audio never does") and lines 89-92 the
`BELA_FLAG_ANALOG_OUTPUTS_PERSIST` context flag ("If not set, writes
affect one frame only"). Spec section 4.1: "if the persistence flag is
set, values written to an output channel in one period remain until
explicitly overwritten in a later period; if unset, each period's output
buffer is logically reset and must be written every frame ... Digital
outputs always persist, regardless of the flag". Output buffers are
lists of samples (`Rat` for the `float` analog/audio carriers, `Nat` for
the digital words); the period boundary maps last period's buffer
contents to what the next period's render invocation observes before any
write. -/

/-- Write of value `v` to position `i` of an output buffer during a
render invocation. -/
def writeOut (buf : List Rat) (i : Nat) (v : Rat) : List Rat :=
  buf.set i v

/-- Modelled from the spec: analog output buffer observed at the start
of the next period (the buffer-exchange code is missing from the
shipped sources) - kept
as-is when `BELA_FLAG_ANALOG_OUTPUTS_PERSIST` is set, logically reset
(all samples zero) when it is not. -/
def analogBoundary (persistFlag : Bool) (buf : List Rat) : List Rat :=
  if persistFlag then buf else List.replicate buf.length 0

/-- Modelled from the spec: audio output buffer observed at the start
of the next period - audio
never persists (`Bela.h` line 153), so it is always logically reset. -/
def audioBoundary (buf : List Rat) : List Rat :=
  List.replicate buf.length 0

/-- Modelled from the spec: digital output words observed at the start
of the next period - digital pins always persist (`Bela.h` line 153), regardless of the
persistence flag. -/
def digitalBoundary (buf : List Nat) : List Nat :=
  buf

end Buffers

namespace Registry

/-! ## Auxiliary task registry: create and start

Modelled from the spec: the implementations of
`Bela_createAuxiliaryTask` and `Bela_startAuxiliaryTask` are not among
the shipped sources. `Bela.h` lines 586-588 document the priority range
("Valid values are between 0 and 99") and line 592 the unique name;
lines 597-606 document `Bela_startAuxiliaryTask` ("set a flag in the
associate InternalAuxiliaryTask to flag the task as started, so that
successive calls to the same function for a given AuxiliaryTask have no
effect" and "it is called by Bela_scheduleAuxiliaryTask if needed").
Spec section 4.2: create "Fails (returns invalid) if the name already
exists or priority is out of range ... No partial side effects on
failure"; start is "idempotent. On first call it provisions a dedicated
background execution context ...; subsequent calls are no-ops";
schedule "Signals the task's wake flag; if the task was never started,
starts it first". -/

/-- Record of one registered auxiliary task: its unique name, its
priority, whether `Bela_startAuxiliaryTask` has marked it started, how
many times an execution context has been provisioned for it, and whether
a wake is pending. -/
structure AuxTask where
  name : String
  priority : Int
  started : Bool
  provisions : Nat
  wakePending : Bool
  deriving Repr, DecidableEq

/-- Process-wide registry of auxiliary tasks, in creation order. -/
structure AuxRegistry where
  tasks : List AuxTask
  deriving Repr, DecidableEq

/-- Modelled from the spec: result and post-state of
`Bela_createAuxiliaryTask` on the registry (its body is missing from
the shipped sources) -
fails (invalid handle, `none`) when the priority is outside `[0, 99]` or
the name is already registered, leaving the registry untouched;
otherwise appends a fresh not-yet-started task record and returns its
index as the handle. -/
def createAuxiliaryTask (reg : AuxRegistry) (priority : Int)
    (name : String) : Option Nat × AuxRegistry :=
  if priority < 0 ∨ 99 < priority then (none, reg)
  else if reg.tasks.any (fun t => t.name = name) then (none, reg)
  else (some reg.tasks.length,
    ⟨reg.tasks ++ [⟨name, priority, false, 0, false⟩]⟩)

/-- Modelled from the spec: effect of `Bela_startAuxiliaryTask` on one
task record (its body is missing from the shipped sources) - on the
first call it provisions the execution context and marks the task
started; when the task is already started the call has no effect. -/
def startAuxiliaryTask (t : AuxTask) : AuxTask :=
  if t.started then t
  else { t with started := true, provisions := t.provisions + 1 }

/-- Modelled from the spec: effect of `Bela_scheduleAuxiliaryTask` on
one task record (its body is missing from the shipped sources) - starts
the task first if it was never started, then signals its wake flag. -/
def scheduleAuxiliaryTask (t : AuxTask) : AuxTask :=
  { startAuxiliaryTask t with wakePending := true }

end Registry

namespace Sched

/-! ## Fixed-priority preemptive scheduling

Modelled from the spec: thread scheduling is performed by the Xenomai
kernel, outside the shipped sources; `Bela.h` line 53 defines
`BELA_AUDIO_PRIORITY` as 95 ("Xenomai priority level for audio
processing"), lines 50-51 state that "all auxiliary tasks should have a
level lower than this unless ... the task needs to interrupt audio
processing", and lines 587-588 that "Tasks with higher priority always
preempt tasks with lower priority". Spec section 4.2: "a task whose
priority is strictly below the render thread's fixed top priority can
never preempt it; the render deadline is unaffected by any auxiliary
task's execution time". The model is a discrete-tick fixed-priority
scheduler over the render thread (at `BELA_AUDIO_PRIORITY`) and a set of
auxiliary threads: each tick the runnable thread with the highest
priority executes one unit of work, preemption going to a strictly
higher priority. -/

/-- Xenomai priority level for audio processing, `Bela.h` line 53. -/
def BELA_AUDIO_PRIORITY : Nat := 95

/-- One auxiliary thread: its fixed priority and its remaining units of
work (0 when it has nothing to run). -/
structure AuxThread where
  priority : Nat
  remaining : Nat
  deriving Repr, DecidableEq

/-- Scheduler state: remaining units of the render thread's
current-period work, and the auxiliary threads. -/
structure SchedState where
  renderRemaining : Nat
  auxs : List AuxThread
  deriving Repr, DecidableEq

/-- Whether some runnable auxiliary thread has a priority strictly above
the render thread's, and hence would preempt it. -/
def auxCanPreempt (renderPriority : Nat) (auxs : List AuxThread) : Bool :=
  auxs.any (fun a => 0 < a.remaining ∧ renderPriority < a.priority)

/-- Execution of one unit of work by the first runnable auxiliary thread
of priority `p` in the list. -/
def runAuxAt (p : Nat) : List AuxThread → List AuxThread
  | [] => []
  | a :: rest =>
      if a.priority = p ∧ 0 < a.remaining then
        { a with remaining := a.remaining - 1 } :: rest
      else a :: runAuxAt p rest

/-- Highest priority among the runnable auxiliary threads, when one
exists. -/
def bestAuxPriority (auxs : List AuxThread) : Option Nat :=
  ((auxs.filter (fun a => 0 < a.remaining)).map (fun a => a.priority)).max?

/-- Modelled from the spec: one tick of the fixed-priority scheduler
(scheduling is performed by the Xenomai kernel, outside the shipped
sources) - the render thread executes one unit whenever it
has work left and no runnable auxiliary thread of strictly higher
priority exists; otherwise the highest-priority runnable auxiliary
thread executes one unit. -/
def schedStep (s : SchedState) : SchedState :=
  if 0 < s.renderRemaining ∧
      ¬ auxCanPreempt BELA_AUDIO_PRIORITY s.auxs = true then
    { s with renderRemaining := s.renderRemaining - 1 }
  else
    match bestAuxPriority s.auxs with
    | none => s
    | some p => { s with auxs := runAuxAt p s.auxs }

end Sched

namespace Layout

/-! ## Interleaved and planar buffer layouts

Layouts follow `BELA_FLAG_INTERLEAVED` (`Bela.h` lines 86-88) and the
write loop of the shipped example `filter-FIR/render.cpp` lines 92-95,
which addresses the interleaved audio output buffer as
`audioOut[n * audioOutChannels + channel]` — frame-major, the channel
index varying fastest. The planar (non-interleaved) layout is modelled
from the spec (section 4.1: "planar lays them channel-major"): sample
(frame f, channel c) lives at `c * numFrames + f`. A buffer for `C`
channels and `F` frames is a list of `C * F` samples; `mat` below is the
abstract sample matrix, `mat f c` being the sample of frame `f`,
channel `c`. -/

/-- Interleaved buffer of a sample matrix for `numChannels` channels and
`numFrames` frames: position `i` holds the sample of frame
`i / numChannels` and channel `i % numChannels`, so that sample
`(f, c)` lives at `f * numChannels + c` — the addressing used by
`render.cpp` line 94. -/
def interleavedOf (numChannels numFrames : Nat)
    (mat : Nat → Nat → Rat) : List Rat :=
  (List.range (numFrames * numChannels)).map
    (fun i => mat (i / numChannels) (i % numChannels))

/-- Modelled from the spec: planar buffer of a sample matrix for
`numChannels` channels and
`numFrames` frames: position `i` holds the sample of channel
`i / numFrames` and frame `i % numFrames`, so that sample `(f, c)`
lives at `c * numFrames + f`. -/
def planarOf (numChannels numFrames : Nat)
    (mat : Nat → Nat → Rat) : List Rat :=
  (List.range (numChannels * numFrames)).map
    (fun i => mat (i % numFrames) (i / numFrames))

/-- Conversion of an interleaved buffer to the planar layout: planar
position `i` (channel `i / numFrames`, frame `i % numFrames`) receives
the sample at interleaved position
`(i % numFrames) * numChannels + i / numFrames`. -/
def interleavedToPlanar (numChannels numFrames : Nat)
    (buf : List Rat) : List Rat :=
  (List.range (numChannels * numFrames)).map
    (fun i => buf.getD ((i % numFrames) * numChannels + i / numFrames) 0)

/-- Conversion of a planar buffer to the interleaved layout: interleaved
position `i` (frame `i / numChannels`, channel `i % numChannels`)
receives the sample at planar position
`(i % numChannels) * numFrames + i / numChannels`. -/
def planarToInterleaved (numChannels numFrames : Nat)
    (buf : List Rat) : List Rat :=
  (List.range (numFrames * numChannels)).map
    (fun i => buf.getD ((i % numChannels) * numFrames + i / numChannels) 0)

end Layout

/-! ## Claim C1: analog/digital rate-ratio contract -/

/-- C1 counterexample. The claim states that with analog I/O enabled and 8
analog channels, the analog sample rate is one quarter of the audio rate.
`Bela.h` lines 237-243 document 22050 Hz for 8 channels, which is one
half of the 44100 Hz audio rate, not one quarter: at the concrete
configuration (analog enabled, digital enabled, 8 analog channels), four
times the analog rate is not the audio rate. -/
theorem c1_quarter_rate_counterexample :
    ¬ (4 * Bela.analogSampleRate ⟨true, true, 8⟩ = Bela.audioSampleRate) := by
  decide

/-- C1 (amended): for every configuration with analog I/O enabled, the
analog sample rate is the fixed ratio of the audio sample rate determined
by the analog channel count — 8 channels give one half of the audio rate,
4 channels give the full audio rate, and 2 channels give twice the audio
rate; the digital channel count is the fixed constant 16 whenever digital
I/O is enabled and 0 otherwise. -/
theorem c1_rate_ratio_contract (cfg : Bela.RateConfig)
    (h : cfg.useAnalog = true) :
    (cfg.numAnalogChannels = 8 →
      2 * Bela.analogSampleRate cfg = Bela.audioSampleRate) ∧
    (cfg.numAnalogChannels = 4 →
      Bela.analogSampleRate cfg = Bela.audioSampleRate) ∧
    (cfg.numAnalogChannels = 2 →
      Bela.analogSampleRate cfg = 2 * Bela.audioSampleRate) ∧
    Bela.digitalChannels cfg = (if cfg.useDigital then 16 else 0) := by
  refine ⟨fun h8 => ?_, fun h4 => ?_, fun h2 => ?_, ?_⟩ <;>
    simp [Bela.analogSampleRate, Bela.digitalChannels, Bela.audioSampleRate,
      h, *]

/-- C1 witness: the amended rate contract evaluated at the concrete
configuration with analog and digital enabled and 8 analog channels. -/
theorem c1_rate_ratio_contract_witness :
    2 * Bela.analogSampleRate ⟨true, true, 8⟩ = Bela.audioSampleRate ∧
    Bela.digitalChannels ⟨true, true, 8⟩ = 16 := by
  have h := c1_rate_ratio_contract ⟨true, true, 8⟩ rfl
  exact ⟨h.1 rfl, by simpa using h.2.2.2⟩

/-! ## Claim C10: per-touch accessor bounds -/

/-- C10: `CentroidDetection`'s per-touch accessors never index out of
bounds and return 0 out of range, with asymmetric bounds: for
`touch_num ≥ maxNumCentroids`, `touchLocation` returns 0; for
`touch_num ≥ num_touches` (= `getNumTouches()`), `touchSize` returns 0;
and for `touch_num` in `[num_touches, maxNumCentroids)`, `touchLocation`
returns the stored (stale) centroid value rather than 0. The
well-formedness hypotheses record the vector sizes fixed in `setup`, under
which every in-range access is within the vector's bounds. -/
theorem c10_touch_accessor_bounds (s : CentroidDetection.State)
    (touch_num : Nat)
    (hlen : s.centroids.length = s.maxNumCentroids) :
    (s.maxNumCentroids ≤ touch_num →
      CentroidDetection.touchLocation s touch_num = 0) ∧
    (s.num_touches ≤ touch_num →
      CentroidDetection.touchSize s touch_num = 0) ∧
    (touch_num < s.maxNumCentroids → touch_num < s.centroids.length) ∧
    (s.num_touches ≤ touch_num → touch_num < s.maxNumCentroids →
      CentroidDetection.touchLocation s touch_num =
        s.centroids.getD touch_num 0) := by
  refine ⟨fun hmax => ?_, fun hnum => ?_, fun hlt => ?_, fun _ hlt => ?_⟩
  · simp [CentroidDetection.touchLocation, Nat.not_lt.mpr hmax]
  · simp [CentroidDetection.touchSize, Nat.not_lt.mpr hnum]
  · omega
  · simp [CentroidDetection.touchLocation, hlt]

/-- C10 witness: a concrete state with `maxNumCentroids = 3`, one active
touch and a stale nonzero centroid stored at slot 2. `touchLocation 2`
returns the stale value 3/4 (not 0) while `touchSize 2` returns 0, and
`touchLocation 5` returns 0. -/
theorem c10_touch_accessor_bounds_witness :
    CentroidDetection.touchLocation
        ⟨3, [(1 : Rat)/2, 2/3, 3/4], [1, 1, 1], 1⟩ 5 = 0 ∧
    CentroidDetection.touchSize
        ⟨3, [(1 : Rat)/2, 2/3, 3/4], [1, 1, 1], 1⟩ 2 = 0 ∧
    CentroidDetection.touchLocation
        ⟨3, [(1 : Rat)/2, 2/3, 3/4], [1, 1, 1], 1⟩ 2 = 3/4 := by
  have h5 := c10_touch_accessor_bounds
    ⟨3, [(1 : Rat)/2, 2/3, 3/4], [1, 1, 1], 1⟩ 5 (by decide)
  have h2 := c10_touch_accessor_bounds
    ⟨3, [(1 : Rat)/2, 2/3, 3/4], [1, 1, 1], 1⟩ 2 (by decide)
  refine ⟨h5.1 (by decide), h2.2.1 (by decide), ?_⟩
  have := h2.2.2.2 (by decide) (by decide)
  simpa using this

namespace Dispatch

/-- Per-step accounting: an enabled transition never decreases the state
weight, and increases it by at most one, only on a `schedule` event whose
wake flag was clear. A `schedule` with the flag already set leaves the
weight unchanged — this is the coalescing. -/
theorem weight_step (s : TaskState) (e : Ev) (s' : TaskState)
    (h : step s e = some s') :
    s.weight ≤ s'.weight ∧
      s'.weight ≤ s.weight + (if e = Ev.schedule then 1 else 0) := by
  rcases s with ⟨p, r, x⟩
  cases e with
  | schedule =>
    simp only [step, Option.some.injEq] at h
    subst h
    cases p <;> cases r <;> simp [TaskState.weight]
  | beginRun =>
    simp only [step] at h
    split at h
    · rename_i hc
      simp only [Option.some.injEq] at h
      subst h
      obtain ⟨hp, hr⟩ := hc
      subst hp
      simp only [Bool.not_eq_true] at hr
      subst hr
      simp [TaskState.weight]
    · exact absurd h (by simp)
  | endRun =>
    simp only [step] at h
    split at h
    · rename_i hr
      simp only [Option.some.injEq] at h
      subst h
      subst hr
      cases p <;> simp [TaskState.weight]
    · exact absurd h (by simp)

/-- Weight is monotone along any enabled trace. -/
theorem weight_mono (evs : List Ev) :
    ∀ (s s' : TaskState), runTrace s evs = some s' →
      s.weight ≤ s'.weight := by
  induction evs with
  | nil =>
    intro s s' h
    simp only [runTrace, Option.some.injEq] at h
    subst h
    exact Nat.le_refl _
  | cons e rest ih =>
    intro s s' h
    simp only [runTrace] at h
    cases hstep : step s e with
    | none => rw [hstep] at h; exact absurd h (by simp)
    | some s1 =>
      rw [hstep] at h
      exact Nat.le_trans (weight_step s e s1 hstep).1 (ih s1 s' h)

/-- Weight gained over an enabled trace is at most the number of
`schedule` events in it. -/
theorem weight_le_schedules (evs : List Ev) :
    ∀ (s s' : TaskState), runTrace s evs = some s' →
      s'.weight ≤ s.weight + countSchedules evs := by
  induction evs with
  | nil =>
    intro s s' h
    simp only [runTrace, Option.some.injEq] at h
    subst h
    simp [countSchedules]
  | cons e rest ih =>
    intro s s' h
    simp only [runTrace] at h
    cases hstep : step s e with
    | none => rw [hstep] at h; exact absurd h (by simp)
    | some s1 =>
      rw [hstep] at h
      have h1 := (weight_step s e s1 hstep).2
      have h2 := ih s1 s' h
      have hc : countSchedules (e :: rest) =
          (if e = Ev.schedule then 1 else 0) + countSchedules rest := by
        simp only [countSchedules, List.countP_cons]
        cases e <;> simp [Nat.add_comm]
      rw [hc]
      omega

/-- Once a trace contains a `schedule` event, the final weight is at
least one. -/
theorem weight_pos_of_schedule (evs : List Ev) :
    ∀ (s s' : TaskState), runTrace s evs = some s' →
      1 ≤ countSchedules evs → 1 ≤ s'.weight := by
  induction evs with
  | nil =>
    intro s s' _ hcount
    simp [countSchedules] at hcount
  | cons e rest ih =>
    intro s s' h hcount
    simp only [runTrace] at h
    cases hstep : step s e with
    | none => rw [hstep] at h; exact absurd h (by simp)
    | some s1 =>
      rw [hstep] at h
      cases e with
      | schedule =>
        have h1 : 1 ≤ s1.weight := by
          simp only [step, Option.some.injEq] at hstep
          subst hstep
          rcases s with ⟨p, r, x⟩
          cases r <;> simp [TaskState.weight]
        exact Nat.le_trans h1 (weight_mono rest s1 s' h)
      | beginRun =>
        refine ih s1 s' h ?_
        simpa [countSchedules, List.countP_cons] using hcount
      | endRun =>
        refine ih s1 s' h ?_
        simpa [countSchedules, List.countP_cons] using hcount

end Dispatch

namespace CentroidDetection

/-- `findNumTouches` never exceeds the buffer length, so the
`num_touches` member set by `process` is at most `maxNumCentroids`
(the length `centroidBuffer` was resized to in `setup`). -/
theorem findNumTouches_le_length (buf : List Nat) :
    findNumTouches buf ≤ buf.length := by
  induction buf with
  | nil => simp [findNumTouches]
  | cons w rest ih =>
    simp only [findNumTouches, List.length_cons]
    split
    · omega
    · omega

end CentroidDetection

/-! ## Claim C2: schedule is non-blocking and level-triggered -/

/-- C2: for every started task, issuing `schedule` any number of times
while the task's body outlasts one period results in at least 1 and at
most N actual executions, N being the number of `schedule` calls:
over any enabled dispatcher trace from the initial state that contains at
least one `schedule` event and ends quiescent (no wake pending, body not
running), the number of completed executions of the task body lies
between 1 and the number of `schedule` events — repeated schedules while
a wake is pending or the body is running coalesce into at most one
additional pending execution. -/
theorem c2_schedule_coalescing (evs : List Dispatch.Ev)
    (s' : Dispatch.TaskState)
    (h : Dispatch.runTrace Dispatch.TaskState.init evs = some s')
    (hp : s'.pending = false) (hr : s'.running = false)
    (hn : 1 ≤ Dispatch.countSchedules evs) :
    1 ≤ s'.executions ∧ s'.executions ≤ Dispatch.countSchedules evs := by
  have hub := Dispatch.weight_le_schedules evs _ _ h
  have hlb := Dispatch.weight_pos_of_schedule evs _ _ h hn
  have hw : s'.weight = s'.executions := by
    simp [Dispatch.TaskState.weight, hp, hr]
  have hiw : Dispatch.TaskState.init.weight = 0 := rfl
  rw [hw] at hub hlb
  rw [hiw] at hub
  omega

/-- C2 witness: the concrete trace schedule, schedule, beginRun, endRun
(two schedules issued before the task thread wakes) is enabled, ends
quiescent, and yields exactly one execution — strictly fewer than the
two schedules, exhibiting the coalescing. -/
theorem c2_schedule_coalescing_witness :
    1 ≤ (⟨false, false, 1⟩ : Dispatch.TaskState).executions ∧
    (⟨false, false, 1⟩ : Dispatch.TaskState).executions ≤
      Dispatch.countSchedules
        [Dispatch.Ev.schedule, Dispatch.Ev.schedule,
         Dispatch.Ev.beginRun, Dispatch.Ev.endRun] :=
  c2_schedule_coalescing
    [Dispatch.Ev.schedule, Dispatch.Ev.schedule,
     Dispatch.Ev.beginRun, Dispatch.Ev.endRun]
    ⟨false, false, 1⟩ (by decide) rfl rfl (by decide)

/-! ## Claim C3: the stop signal is monotone and silences render -/

/-- C3: `gShouldStop` only ever transitions from false to true — no core
operation resets it — and once it has been observed true (in particular
once `Bela_stopAudio` has run, from any thread), no further render
invocation occurs: along every enabled run of core operations from a
state in which the flag is true, the flag is still true at the end and
the render invocation count is unchanged. -/
theorem c3_stop_monotone_no_render (ops : List Lifecycle.Op)
    (s s' : Lifecycle.CoreState)
    (h : Lifecycle.runCore s ops = some s')
    (hstop : s.gShouldStop = true) :
    s'.gShouldStop = true ∧ s'.renderCount = s.renderCount := by
  induction ops generalizing s with
  | nil =>
    simp only [Lifecycle.runCore, Option.some.injEq] at h
    subst h
    exact ⟨hstop, rfl⟩
  | cons op rest ih =>
    simp only [Lifecycle.runCore] at h
    cases op with
    | renderInvoke =>
      simp only [Lifecycle.coreStep, hstop] at h
      exact absurd h (by simp)
    | stopAudio =>
      simp only [Lifecycle.coreStep] at h
      exact ih { s with gShouldStop := true } h rfl
    | otherWork =>
      simp only [Lifecycle.coreStep] at h
      exact ih s h hstop

/-- C3 witness: from a stopped state with 5 render invocations issued,
running a further stop call and another core operation is enabled,
leaves the flag true and issues no further render invocation. -/
theorem c3_stop_monotone_no_render_witness :
    (⟨true, 5⟩ : Lifecycle.CoreState).gShouldStop = true ∧
    (⟨true, 5⟩ : Lifecycle.CoreState).renderCount =
      (⟨true, 5⟩ : Lifecycle.CoreState).renderCount :=
  c3_stop_monotone_no_render
    [Lifecycle.Op.stopAudio, Lifecycle.Op.otherWork]
    ⟨true, 5⟩ ⟨true, 5⟩ (by decide) rfl

/-! ## Claim C4: elapsed-frame counter -/

/-- C4: the elapsed-audio-frame counter starts at 0 and increases by
exactly `periodSize` on every render invocation, so for all k ≥ 0 the
counter observed by the k-th render invocation with period P equals
k · P. -/
theorem c4_audio_frames_elapsed (periodSize k : Nat) :
    Render.audioFramesElapsed periodSize k = k * periodSize := by
  induction k with
  | zero => simp [Render.audioFramesElapsed]
  | succ k ih =>
    simp only [Render.audioFramesElapsed, ih, Nat.succ_mul]

/-! ## Claim C5: per-domain output persistence -/

/-- C5: output persistence is per-domain and controlled by the
persistence flag. A value written to an analog output position in period
k and not rewritten is still observed at the start of period k+1 when
`BELA_FLAG_ANALOG_OUTPUTS_PERSIST` is set; when it is unset, the analog
output buffer observed at the next period is logically reset, so the
written value reads back as 0 and outputs must be rewritten every
period; a digital output word persists into the next period in every
case, regardless of the flag. -/
theorem c5_output_persistence (persistFlag : Bool) (analogBuf : List Rat)
    (digitalBuf : List Nat) (i j : Nat) (v : Rat) (w : Nat)
    (hi : i < analogBuf.length) (hj : j < digitalBuf.length) :
    (persistFlag = true →
      (Buffers.analogBoundary persistFlag
        (Buffers.writeOut analogBuf i v)).getD i 0 = v) ∧
    (persistFlag = false →
      (Buffers.analogBoundary persistFlag
        (Buffers.writeOut analogBuf i v)).getD i 0 = 0) ∧
    (Buffers.digitalBoundary (digitalBuf.set j w)).getD j 0 = w := by
  refine ⟨fun hflag => ?_, fun hflag => ?_, ?_⟩
  · subst hflag
    simp only [Buffers.analogBoundary, Buffers.writeOut, if_pos rfl]
    rw [List.getD_eq_getElem _ _ (by simpa using hi)]
    simp
  · subst hflag
    simp only [Buffers.analogBoundary, Buffers.writeOut, Bool.false_eq_true,
      if_false, List.length_set]
    rw [List.getD_eq_getElem _ _ (by simpa using hi)]
    simp
  · simp only [Buffers.digitalBoundary]
    rw [List.getD_eq_getElem _ _ (by simpa using hj)]
    simp

/-- C5 witness: writing 1/2 to analog output position 0 of a two-sample
buffer survives the period boundary when the persist flag is set, reads
back as 0 when it is not, and a digital word written as 7 survives in
every case. -/
theorem c5_output_persistence_witness :
    (Buffers.analogBoundary true
      (Buffers.writeOut [0, 0] 0 (1/2))).getD 0 0 = 1/2 ∧
    (Buffers.analogBoundary false
      (Buffers.writeOut [0, 0] 0 (1/2))).getD 0 0 = 0 ∧
    (Buffers.digitalBoundary ([0, 0].set 1 7)).getD 1 0 = 7 := by
  have h1 := c5_output_persistence true [0, 0] [0, 0] 0 1 (1/2) 7
    (by decide) (by decide)
  have h2 := c5_output_persistence false [0, 0] [0, 0] 0 1 (1/2) 7
    (by decide) (by decide)
  exact ⟨h1.1 rfl, h2.2.1 rfl, h1.2.2⟩

/-! ## Claim C6: create fails atomically -/

/-- C6: every call to `Bela_createAuxiliaryTask` with a name already in
the registry or a priority outside [0, 99] fails by returning an invalid
handle and leaves the registry completely unchanged — in particular the
registry size is the same before and after the failing call; no partial
side effects occur on failure. -/
theorem c6_create_fails_unchanged (reg : Registry.AuxRegistry)
    (priority : Int) (name : String)
    (h : priority < 0 ∨ 99 < priority ∨
      reg.tasks.any (fun t => t.name = name) = true) :
    (Registry.createAuxiliaryTask reg priority name).1 = none ∧
    (Registry.createAuxiliaryTask reg priority name).2 = reg ∧
    (Registry.createAuxiliaryTask reg priority name).2.tasks.length =
      reg.tasks.length := by
  by_cases hp : priority < 0 ∨ 99 < priority
  · simp [Registry.createAuxiliaryTask, hp]
  · have hdup : reg.tasks.any (fun t => t.name = name) = true := by
      rcases h with h | h | h
      · exact absurd (Or.inl h) hp
      · exact absurd (Or.inr h) hp
      · exact h
    simp [Registry.createAuxiliaryTask, hp, hdup]

/-- C6 witness: with a task named "x" already registered (created at
priority 50), a second create at priority 40 reusing the name "x"
returns an invalid handle and leaves the one-entry registry unchanged —
the scenario of spec section 8. -/
theorem c6_create_fails_unchanged_witness :
    (Registry.createAuxiliaryTask ⟨[⟨"x", 50, false, 0, false⟩]⟩
      40 "x").1 = none ∧
    (Registry.createAuxiliaryTask ⟨[⟨"x", 50, false, 0, false⟩]⟩
      40 "x").2 = ⟨[⟨"x", 50, false, 0, false⟩]⟩ ∧
    (Registry.createAuxiliaryTask ⟨[⟨"x", 50, false, 0, false⟩]⟩
      40 "x").2.tasks.length = 1 :=
  c6_create_fails_unchanged ⟨[⟨"x", 50, false, 0, false⟩]⟩ 40 "x"
    (Or.inr (Or.inr (by decide)))

/-! ## Claim C7: start is idempotent, schedule starts at most once -/

/-- C7: `Bela_startAuxiliaryTask` is idempotent — the first call on a
task provisions its execution context and marks it started, and every
subsequent call is a no-op leaving all state unchanged; scheduling a
task that was never started starts it implicitly exactly once (one
provision, not repeated by later schedules) before signalling its
wake. -/
theorem c7_start_idempotent (t : Registry.AuxTask) :
    Registry.startAuxiliaryTask (Registry.startAuxiliaryTask t) =
      Registry.startAuxiliaryTask t ∧
    (Registry.startAuxiliaryTask t).started = true ∧
    (t.started = true → Registry.startAuxiliaryTask t = t) ∧
    (t.started = false →
      (Registry.scheduleAuxiliaryTask t).started = true ∧
      (Registry.scheduleAuxiliaryTask t).wakePending = true ∧
      (Registry.scheduleAuxiliaryTask t).provisions = t.provisions + 1 ∧
      (Registry.scheduleAuxiliaryTask
        (Registry.scheduleAuxiliaryTask t)).provisions =
          t.provisions + 1) := by
  rcases t with ⟨name, priority, started, provisions, wakePending⟩
  cases started <;>
    simp [Registry.startAuxiliaryTask, Registry.scheduleAuxiliaryTask]

/-- C7 witness: on a concrete never-started task, start after start
equals a single start, the first schedule marks it started and
provisions its execution context exactly once, and a second schedule
does not provision again. -/
theorem c7_start_idempotent_witness :
    Registry.startAuxiliaryTask
      (Registry.startAuxiliaryTask ⟨"t", 50, false, 0, false⟩) =
      Registry.startAuxiliaryTask ⟨"t", 50, false, 0, false⟩ ∧
    (Registry.scheduleAuxiliaryTask
      ⟨"t", 50, false, 0, false⟩).provisions = 1 ∧
    (Registry.scheduleAuxiliaryTask (Registry.scheduleAuxiliaryTask
      ⟨"t", 50, false, 0, false⟩)).provisions = 1 := by
  have h := c7_start_idempotent ⟨"t", 50, false, 0, false⟩
  have h4 := h.2.2.2 rfl
  exact ⟨h.1, by simpa using h4.2.2.1, by simpa using h4.2.2.2⟩

namespace Sched

/-- Progress of the render thread under the fixed-priority scheduler:
when every auxiliary thread's priority is strictly below
`BELA_AUDIO_PRIORITY`, each of the first `renderRemaining` ticks executes
one unit of the render thread's work and leaves every auxiliary thread
untouched. -/
theorem render_progress (k : Nat) :
    ∀ (s : SchedState),
      (∀ a ∈ s.auxs, a.priority < BELA_AUDIO_PRIORITY) →
      k ≤ s.renderRemaining →
      schedStep^[k] s = ⟨s.renderRemaining - k, s.auxs⟩ := by
  induction k with
  | zero =>
    intro s _ _
    simp
  | succ k ih =>
    intro s h hk
    rw [Function.iterate_succ_apply]
    have hnp : auxCanPreempt BELA_AUDIO_PRIORITY s.auxs = false := by
      simp only [auxCanPreempt, List.any_eq_false, decide_eq_false_iff_not]
      intro a ha
      have hlt := h a ha
      simp only [BELA_AUDIO_PRIORITY] at hlt
      simp only [decide_eq_true_eq, not_and, not_lt, BELA_AUDIO_PRIORITY]
      intro _
      omega
    have hpos : 0 < s.renderRemaining := by omega
    have hstep : schedStep s = ⟨s.renderRemaining - 1, s.auxs⟩ := by
      simp [schedStep, hnp, hpos]
    rw [hstep]
    have hrest := ih ⟨s.renderRemaining - 1, s.auxs⟩ (by simpa using h)
      (by simp only; omega)
    rw [hrest]
    have harith : s.renderRemaining - 1 - k = s.renderRemaining - (k + 1) := by
      omega
    simp only at harith ⊢
    rw [harith]

end Sched

namespace Layout

/-- Division step of the layout index arithmetic: with `c < C`, position
`f * C + c` has quotient `f` by `C`. -/
theorem mulAddDiv (f C c : Nat) (hc : c < C) : (f * C + c) / C = f := by
  have hC : 0 < C := Nat.pos_of_ne_zero (by omega)
  rw [Nat.add_comm, Nat.add_mul_div_right _ _ hC, Nat.div_eq_of_lt hc,
    Nat.zero_add]

/-- Remainder step of the layout index arithmetic: with `c < C`, position
`f * C + c` has remainder `c` by `C`. -/
theorem mulAddMod (f C c : Nat) (hc : c < C) : (f * C + c) % C = c := by
  rw [Nat.add_comm, Nat.add_mul_mod_self_right, Nat.mod_eq_of_lt hc]

/-- Bound step of the layout index arithmetic: with `f < F` and `c < C`,
position `f * C + c` is inside a buffer of `F * C` samples. -/
theorem mulAddLt (f C c F : Nat) (hf : f < F) (hc : c < C) :
    f * C + c < F * C := by
  calc f * C + c < f * C + C := by omega
    _ = (f + 1) * C := by ring
    _ ≤ F * C := Nat.mul_le_mul_right _ hf

/-- Generic inversion of the layout conversions: reading a buffer of
`A * B` samples through the index permutation `j ↦ (j % B) * A + j / B`
and back through `i ↦ (i % A) * B + i / A` reproduces the buffer. Both
round trips below are instances of this with `A, B` chosen as the
channel and frame counts in the two orders. -/
theorem convertBack (A B : Nat) (buf : List Rat)
    (hbuf : buf.length = A * B) :
    (List.range (B * A)).map (fun i =>
      ((List.range (A * B)).map
        (fun j => buf.getD ((j % B) * A + j / B) 0)).getD
          ((i % A) * B + i / A) 0) = buf := by
  apply List.ext_getElem
  · simp [hbuf, Nat.mul_comm]
  · intro i hi1 hi2
    have hiBA : i < B * A := by simpa using hi1
    have hA : 0 < A := by
      rcases Nat.eq_zero_or_pos A with h | h
      · subst h; simp at hiBA
      · exact h
    have hfi : i / A < B := by
      rw [Nat.div_lt_iff_lt_mul hA]
      exact hiBA
    have hci : i % A < A := Nat.mod_lt _ hA
    have hj : (i % A) * B + i / A < A * B := mulAddLt _ _ _ _ hci hfi
    simp only [List.getElem_map, List.getElem_range]
    rw [List.getD_eq_getElem _ _ (by simpa using hj)]
    simp only [List.getElem_map, List.getElem_range]
    rw [mulAddMod _ _ _ hfi, mulAddDiv _ _ _ hfi]
    have hidx : (i / A) * A + i % A = i := by
      rw [Nat.mul_comm]
      exact Nat.div_add_mod i A
    rw [hidx, List.getD_eq_getElem _ _ (by omega)]

end Layout

/-! ## Claim C8: lower-priority tasks never preempt the render thread -/

/-- C8: every auxiliary task whose priority is strictly below the render
thread's fixed top priority `BELA_AUDIO_PRIORITY` can never preempt the
render thread. In the fixed-priority scheduler model (with no shared
resources, matching the claim's caveat about caller-shared contention):
no runnable auxiliary thread can preempt, each of the render thread's
work units executes on consecutive ticks with every auxiliary thread
untouched, and the render thread's remaining work after k ticks is
exactly what it would be with no auxiliary threads at all — the render
deadline is unaffected by auxiliary execution time. -/
theorem c8_no_preemption_below_audio_priority (s : Sched.SchedState)
    (k : Nat)
    (h : ∀ a ∈ s.auxs, a.priority < Sched.BELA_AUDIO_PRIORITY)
    (hk : k ≤ s.renderRemaining) :
    Sched.auxCanPreempt Sched.BELA_AUDIO_PRIORITY s.auxs = false ∧
    (Sched.schedStep^[k] s).renderRemaining = s.renderRemaining - k ∧
    (Sched.schedStep^[k] s).auxs = s.auxs ∧
    (Sched.schedStep^[k] s).renderRemaining =
      (Sched.schedStep^[k]
        (⟨s.renderRemaining, []⟩ : Sched.SchedState)).renderRemaining := by
  have h1 := Sched.render_progress k s h hk
  have h2 := Sched.render_progress k ⟨s.renderRemaining, []⟩
    (by simp) (by simpa using hk)
  refine ⟨?_, by rw [h1], by rw [h1], by rw [h1, h2]⟩
  simp only [Sched.auxCanPreempt, List.any_eq_false,
    decide_eq_false_iff_not]
  intro a ha
  have hlt := h a ha
  simp only [Sched.BELA_AUDIO_PRIORITY] at hlt
  simp only [decide_eq_true_eq, not_and, not_lt, Sched.BELA_AUDIO_PRIORITY]
  intro _
  omega

/-- C8 witness: a render period of 3 work units beside one runnable
auxiliary thread at priority 50 with 10 units of pending work. The
auxiliary thread cannot preempt, and after 3 ticks the render work is
finished with the auxiliary thread still untouched, exactly as with no
auxiliary thread present. -/
theorem c8_no_preemption_below_audio_priority_witness :
    Sched.auxCanPreempt Sched.BELA_AUDIO_PRIORITY [⟨50, 10⟩] = false ∧
    (Sched.schedStep^[3]
      (⟨3, [⟨50, 10⟩]⟩ : Sched.SchedState)).renderRemaining = 3 - 3 ∧
    (Sched.schedStep^[3]
      (⟨3, [⟨50, 10⟩]⟩ : Sched.SchedState)).auxs = [⟨50, 10⟩] ∧
    (Sched.schedStep^[3]
      (⟨3, [⟨50, 10⟩]⟩ : Sched.SchedState)).renderRemaining =
      (Sched.schedStep^[3]
        (⟨3, []⟩ : Sched.SchedState)).renderRemaining :=
  c8_no_preemption_below_audio_priority ⟨3, [⟨50, 10⟩]⟩ 3
    (by decide) (by decide)

/-! ## Claim C9: interleaved and planar layouts invert each other -/

/-- C9: for a buffer of C channels and F frames, the interleaved layout
places the sample of frame f, channel c at index `f * C + c`
(frame-major, channel varying fastest) and the planar layout places it
at index `c * F + f` (channel-major); converting a buffer from one
layout to the other and back — in either order — reproduces the
original samples exactly. -/
theorem c9_layout_roundtrip (C F f c : Nat) (mat : Nat → Nat → Rat)
    (buf : List Rat) (hf : f < F) (hc : c < C)
    (hbuf : buf.length = C * F) :
    (Layout.interleavedOf C F mat).getD (f * C + c) 0 = mat f c ∧
    (Layout.planarOf C F mat).getD (c * F + f) 0 = mat f c ∧
    Layout.planarToInterleaved C F
      (Layout.interleavedToPlanar C F buf) = buf ∧
    (∀ pbuf : List Rat, pbuf.length = F * C →
      Layout.interleavedToPlanar C F
        (Layout.planarToInterleaved C F pbuf) = pbuf) := by
  refine ⟨?_, ?_, ?_, ?_⟩
  · rw [Layout.interleavedOf,
      List.getD_eq_getElem _ _ (by simpa using Layout.mulAddLt f C c F hf hc)]
    simp [Layout.mulAddDiv f C c hc, Layout.mulAddMod f C c hc]
  · rw [Layout.planarOf,
      List.getD_eq_getElem _ _ (by simpa using Layout.mulAddLt c F f C hc hf)]
    simp [Layout.mulAddDiv c F f hf, Layout.mulAddMod c F f hf]
  · simp only [Layout.planarToInterleaved, Layout.interleavedToPlanar]
    exact Layout.convertBack C F buf hbuf
  · intro pbuf hpbuf
    simp only [Layout.planarToInterleaved, Layout.interleavedToPlanar]
    exact Layout.convertBack F C pbuf hpbuf

/-- C9 witness: the 2-channel, 4-frame example of spec section 8, with
the sample of frame f, channel c encoded as the rational 10·f + c. In
the interleaved buffer, frame 3 channel 1 sits at index 3·2+1 = 7; in
the planar buffer, at index 1·4+3 = 7; and the round trip on the
concrete interleaved buffer [0, 1, 10, 11, 20, 21, 30, 31] reproduces
it. -/
theorem c9_layout_roundtrip_witness :
    (Layout.interleavedOf 2 4
      (fun f c => (10 * f + c : Rat))).getD (3 * 2 + 1) 0 = 10 * 3 + 1 ∧
    (Layout.planarOf 2 4
      (fun f c => (10 * f + c : Rat))).getD (1 * 4 + 3) 0 = 10 * 3 + 1 ∧
    Layout.planarToInterleaved 2 4 (Layout.interleavedToPlanar 2 4
      [0, 1, 10, 11, 20, 21, 30, 31]) =
      [0, 1, 10, 11, 20, 21, 30, 31] := by
  have h := c9_layout_roundtrip 2 4 3 1 (fun f c => (10 * f + c : Rat))
    [0, 1, 10, 11, 20, 21, 30, 31] (by decide) (by decide) (by decide)
  exact ⟨h.1, h.2.1, h.2.2.1⟩
